import Mathlib

/-!
Verification of the `useResource` state container (src/src/index.tsx).

The embedding models:
* JS objects used as string-keyed dictionaries (`Dictionary<T>`) as
  association lists `List (String × β)` with JS object semantics:
  update-in-place for an existing key, append for a fresh key, first-match
  lookup, and key removal via rest-destructuring.
* a resource entry (`any & Meta`) as a record whose `id` field and opaque
  payload fields may each be present or absent (JS spreads of possibly
  `undefined` objects can produce entries lacking them), plus the
  mandatory `meta` record.
* the pure reducer `resourceManagerReducer` case by case.
* the orchestrator verb wrappers (`handleGet`, `handleList`, `handleUpdate`,
  `handleCreate`, `handleRemove`) as functions from the settled outcome of
  the supplied promise to the list of dispatched events (in dispatch
  order) together with the settlement of the returned promise; a rejected
  returned promise carries the bare message string, mirroring
  `throw error.message`.
-/

namespace UseResource

/-- The five asynchronous verbs (`AsyncAction` in the source). -/
inductive AsyncAction where
  | get
  | list
  | update
  | remove
  | create
deriving DecidableEq, Repr

/-- Per-entry metadata (`Meta` in the source): the pending verb for this
entry (JS `null` ↦ `none`) and the last error message (JS `null` ↦ `none`). -/
structure MetaRec where
  action : Option AsyncAction
  error : Option String
deriving DecidableEq, Repr

/-- An incoming resource payload: a required string `id` plus opaque
caller-defined fields, abstracted as a value of type `α`. -/
structure Resource (α : Type) where
  id : String
  data : α
deriving DecidableEq, Repr

/-- A stored entry (`any & Meta`). The source builds entries by spreading
possibly-absent objects, so the `id` field and the payload fields may each
be missing: `idField = none` models a JS object with no `id` key, and
`data = none` models one carrying no payload fields. `meta` is always
written by every reducer branch that creates an entry. -/
structure Entry (α : Type) where
  idField : Option String
  data : Option α
  meta : MetaRec
deriving DecidableEq, Repr

/-- `{id, message}` (`ActionError` in the source). -/
structure ActionError where
  id : String
  message : String
deriving DecidableEq, Repr

/-- JS property lookup `obj[k]` on a dictionary: the first binding of `k`
(JS objects have unique keys, on which this is exact), `none` for the JS
`undefined` of a missing key. -/
def jsGet {β : Type} (l : List (String × β)) (k : String) : Option β :=
  (l.find? (fun p => p.1 = k)).map Prod.snd

/-- JS spread-update `{...obj, [k]: v}`: an existing key keeps its position
and gets the new value, a fresh key is appended (JS insertion order). -/
def jsSet {β : Type} (l : List (String × β)) (k : String) (v : β) :
    List (String × β) :=
  if l.any (fun p => p.1 = k) then
    l.map (fun p => if p.1 = k then (k, v) else p)
  else
    l ++ [(k, v)]

/-- JS rest-destructuring `const {[k]: _, ...rest} = obj`: the dictionary
without key `k`. -/
def jsErase {β : Type} (l : List (String × β)) (k : String) :
    List (String × β) :=
  l.filter (fun p => p.1 ≠ k)

/-- The reducer's state (`ResourceManager` in the source): the entries
dictionary (named `list` in the source), the global pending verb, the
global error, and the selected id (all JS `null`s ↦ `none`). -/
structure ResourceManager (α : Type) where
  list : List (String × Entry α)
  action : Option AsyncAction
  error : Option String
  selected : Option String
deriving DecidableEq, Repr

/-- `EMPTY_RESOURCE_MANAGER`. -/
def EMPTY_RESOURCE_MANAGER {α : Type} : ResourceManager α :=
  { list := [], action := none, error := none, selected := none }

/-- The event vocabulary (`Action` in the source). `unknown` stands for any
event type outside the sixteen known ones, hitting the `default` arm. -/
inductive Action (α : Type) where
  | getStarted (id : String)
  | getResolved (r : Resource α)
  | getRejected (e : ActionError)
  | listStarted
  | listResolved (rs : List (Resource α))
  | listRejected (message : String)
  | updateStarted (id : String)
  | updateResolved (r : Resource α)
  | updateRejected (e : ActionError)
  | createStarted
  | createResolved (r : Resource α)
  | createRejected (message : String)
  | removeStarted (id : String)
  | removeResolved (id : String)
  | removeRejected (e : ActionError)
  | selectResource (id : String)
  | unknown
deriving DecidableEq, Repr

/-- `{...state.list[id], id: id, meta}` of `GET_RESOURCE_STARTED`: spread
the existing entry (or nothing, when `state.list[id]` is `undefined`), then
overwrite the `id` field and `meta`. -/
def getStartedEntry {α : Type} (old : Option (Entry α)) (id : String) :
    Entry α :=
  match old with
  | some e => { e with idField := some id, meta := ⟨some .get, none⟩ }
  | none => { idField := some id, data := none, meta := ⟨some .get, none⟩ }

/-- `{...state.list[id], meta}` of `UPDATE_RESOURCE_STARTED` /
`REMOVE_RESOURCE_STARTED`: spread the existing entry (or nothing) and
overwrite only `meta`; unlike the get case, no `id` field is written. -/
def metaOnlyEntry {α : Type} (old : Option (Entry α)) (m : MetaRec) :
    Entry α :=
  match old with
  | some e => { e with meta := m }
  | none => { idField := none, data := none, meta := m }

/-- `{...action.payload, meta: {action: null, error: null}}`: a resource
spread into a fresh entry, as in the `*_RESOLVED` branches. -/
def resolvedEntry {α : Type} (r : Resource α) : Entry α :=
  { idField := some r.id, data := some r.data, meta := ⟨none, none⟩ }

/-- The accumulator step of `LIST_RESOURCE_RESOLVED`:
`acc[resource.id] ? acc : {...acc, [resource.id]: {...resource, meta}}`
(an entry object is always truthy, so the test is key presence). -/
def listResolvedStep {α : Type} (acc : List (String × Entry α))
    (r : Resource α) : List (String × Entry α) :=
  if (jsGet acc r.id).isSome then acc else jsSet acc r.id (resolvedEntry r)

/-- `resourceManagerReducer`, case by case from the source. The source's
switch has no `LIST_RESOURCE_REJECTED` arm, so that event reaches the
`default` arm and leaves the state unchanged, exactly like `unknown`. -/
def resourceManagerReducer {α : Type} (state : ResourceManager α)
    (action : Action α) : ResourceManager α :=
  match action with
  | .getStarted id =>
      { state with
        error := none
        action := some .get
        list := jsSet state.list id (getStartedEntry (jsGet state.list id) id) }
  | .updateStarted id =>
      { state with
        error := none
        action := some .update
        list := jsSet state.list id
          (metaOnlyEntry (jsGet state.list id) ⟨some .update, none⟩) }
  | .removeStarted id =>
      { state with
        error := none
        action := some .remove
        list := jsSet state.list id
          (metaOnlyEntry (jsGet state.list id) ⟨some .remove, none⟩) }
  | .createStarted =>
      { state with error := none, action := some .create }
  | .listStarted =>
      { state with error := none, action := some .list }
  | .getResolved r =>
      { state with
        error := none
        action := none
        list := jsSet state.list r.id (resolvedEntry r) }
  | .updateResolved r =>
      { state with
        error := none
        action := none
        list := jsSet state.list r.id (resolvedEntry r) }
  | .createResolved r =>
      { state with
        error := none
        action := none
        list := jsSet state.list r.id (resolvedEntry r) }
  | .listResolved rs =>
      { state with
        error := none
        action := none
        list := rs.foldl listResolvedStep [] }
  | .removeResolved id =>
      { state with
        selected := if state.selected = some id then none else state.selected
        error := none
        action := none
        list := jsErase state.list id }
  | .getRejected e =>
      { state with
        error := some e.message
        action := none
        list := jsSet state.list e.id
          (metaOnlyEntry (jsGet state.list e.id) ⟨none, some e.message⟩) }
  | .updateRejected e =>
      { state with
        error := some e.message
        action := none
        list := jsSet state.list e.id
          (metaOnlyEntry (jsGet state.list e.id) ⟨none, some e.message⟩) }
  | .removeRejected e =>
      { state with
        error := some e.message
        action := none
        list := jsSet state.list e.id
          (metaOnlyEntry (jsGet state.list e.id) ⟨none, some e.message⟩) }
  | .createRejected message =>
      { state with error := some message, action := none }
  | .listRejected _ => state
  | .selectResource id =>
      { state with selected := some id }
  | .unknown => state

/-- The read projection handed to the caller (`manager` in `useResource`):
`{list: Object.values(state.list), selected: state.selected ?
state.list[state.selected] : null, action, error}`. `selected` resolves
to `none` both for the JS `null` branch and for an `undefined` lookup. -/
structure Projection (α : Type) where
  list : List (Entry α)
  selected : Option (Entry α)
  action : Option AsyncAction
  error : Option String
deriving DecidableEq, Repr

/-- `manager`: the derived read-only view. JS truthiness on
`state.selected` makes the empty string fall to the `null` branch. -/
def managerProjection {α : Type} (state : ResourceManager α) :
    Projection α :=
  { list := state.list.map Prod.snd
    selected :=
      match state.selected with
      | some id => if id = "" then none else jsGet state.list id
      | none => none
    action := state.action
    error := state.error }

/-- The settlement of an externally supplied promise: resolved with a
value, or rejected with a JS error (of which the wrappers use only
`message`). -/
inductive Outcome (α : Type) where
  | resolved (v : α)
  | rejected (message : String)
deriving DecidableEq, Repr

/-- `handleGet`: dispatches `GET_RESOURCE_STARTED` first, then awaits;
on resolution dispatches `GET_RESOURCE_RESOLVED` and resolves with the
resource, on rejection dispatches `GET_RESOURCE_REJECTED {id, message}`
and re-throws the bare `error.message`. Returns (dispatch trace in order,
settlement of the returned promise). -/
def handleGet {α : Type} (id : String) (promise : Outcome (Resource α)) :
    List (Action α) × Except String (Resource α) :=
  match promise with
  | .resolved r => ([.getStarted id, .getResolved r], .ok r)
  | .rejected m => ([.getStarted id, .getRejected ⟨id, m⟩], .error m)

/-- `handleList`: `LIST_RESOURCE_STARTED`, then `RESOLVED` with the list or
`REJECTED` with the bare message. -/
def handleList {α : Type} (promise : Outcome (List (Resource α))) :
    List (Action α) × Except String (List (Resource α)) :=
  match promise with
  | .resolved rs => ([.listStarted, .listResolved rs], .ok rs)
  | .rejected m => ([.listStarted, .listRejected m], .error m)

/-- `handleUpdate`: `UPDATE_RESOURCE_STARTED id`, then `RESOLVED` with the
resource or `REJECTED {id, message}`, re-throwing the bare message. -/
def handleUpdate {α : Type} (id : String) (promise : Outcome (Resource α)) :
    List (Action α) × Except String (Resource α) :=
  match promise with
  | .resolved r => ([.updateStarted id, .updateResolved r], .ok r)
  | .rejected m => ([.updateStarted id, .updateRejected ⟨id, m⟩], .error m)

/-- `handleCreate`: `CREATE_RESOURCE_STARTED`, then `RESOLVED` with the
resource or `REJECTED` with the bare message. -/
def handleCreate {α : Type} (promise : Outcome (Resource α)) :
    List (Action α) × Except String (Resource α) :=
  match promise with
  | .resolved r => ([.createStarted, .createResolved r], .ok r)
  | .rejected m => ([.createStarted, .createRejected m], .error m)

/-- `handleRemove`: `REMOVE_RESOURCE_STARTED id`, then on resolution
`REMOVE_RESOURCE_RESOLVED id`, resolving with `id` (the promise's own
value is discarded), or `REJECTED {id, message}` with the bare message. -/
def handleRemove {α : Type} (id : String) (promise : Outcome α) :
    List (Action α) × Except String String :=
  match promise with
  | .resolved _ => ([.removeStarted id, .removeResolved id], .ok id)
  | .rejected m => ([.removeStarted id, .removeRejected ⟨id, m⟩], .error m)

/-- Folding a dispatch trace through the reducer. -/
def applyTrace {α : Type} (state : ResourceManager α)
    (trace : List (Action α)) : ResourceManager α :=
  trace.foldl resourceManagerReducer state

/-- Settlement events of a `get` invocation. -/
def isGetSettle {α : Type} : Action α → Bool
  | .getResolved _ => true
  | .getRejected _ => true
  | _ => false

/-- Settlement events of a `list` invocation. -/
def isListSettle {α : Type} : Action α → Bool
  | .listResolved _ => true
  | .listRejected _ => true
  | _ => false

/-- Settlement events of an `update` invocation. -/
def isUpdateSettle {α : Type} : Action α → Bool
  | .updateResolved _ => true
  | .updateRejected _ => true
  | _ => false

/-- Settlement events of a `create` invocation. -/
def isCreateSettle {α : Type} : Action α → Bool
  | .createResolved _ => true
  | .createRejected _ => true
  | _ => false

/-- Settlement events of a `remove` invocation. -/
def isRemoveSettle {α : Type} : Action α → Bool
  | .removeResolved _ => true
  | .removeRejected _ => true
  | _ => false

/-! ### Dictionary lemmas -/

theorem jsGet_map_update_self {β : Type} (l : List (String × β))
    (k : String) (v : β) (h : l.any (fun p => p.1 = k) = true) :
    jsGet (l.map (fun p => if p.1 = k then (k, v) else p)) k = some v := by
  revert h
  induction l with
  | nil => intro h; simp at h
  | cons p t ih =>
    intro h
    by_cases hp : p.1 = k
    · simp [jsGet, List.find?, hp]
    · simp only [List.any_cons, hp, decide_False, Bool.false_or] at h
      simpa [jsGet, List.find?, hp] using ih h

theorem jsGet_append_single_self {β : Type} (l : List (String × β))
    (k : String) (v : β) (h : l.any (fun p => p.1 = k) = false) :
    jsGet (l ++ [(k, v)]) k = some v := by
  revert h
  induction l with
  | nil => intro _; simp [jsGet, List.find?]
  | cons p t ih =>
    intro h
    simp only [List.any_cons, Bool.or_eq_false_iff, decide_eq_false_iff_not]
      at h
    simpa [jsGet, List.find?, h.1] using ih h.2

theorem jsGet_set_self {β : Type} (l : List (String × β)) (k : String)
    (v : β) : jsGet (jsSet l k v) k = some v := by
  unfold jsSet
  by_cases h : l.any (fun p => p.1 = k) = true
  · rw [if_pos h]; exact jsGet_map_update_self l k v h
  · rw [if_neg h]
    exact jsGet_append_single_self l k v (Bool.eq_false_iff.mpr h)

theorem jsGet_map_update_ne {β : Type} (l : List (String × β))
    (k k' : String) (v : β) (hkk : k' ≠ k) :
    jsGet (l.map (fun p => if p.1 = k then (k, v) else p)) k' =
      jsGet l k' := by
  induction l with
  | nil => rfl
  | cons p t ih =>
    by_cases hp : p.1 = k
    · have hpk' : p.1 ≠ k' := by rw [hp]; exact Ne.symm hkk
      simpa [jsGet, List.find?, hp, Ne.symm hkk, hpk', hkk] using ih
    · by_cases hp' : p.1 = k'
      · simp [jsGet, List.find?, hp, hp', hkk]
      · simpa [jsGet, List.find?, hp, hp', hkk] using ih

theorem jsGet_append_single_ne {β : Type} (l : List (String × β))
    (k k' : String) (v : β) (hkk : k' ≠ k) :
    jsGet (l ++ [(k, v)]) k' = jsGet l k' := by
  induction l with
  | nil => simp [jsGet, List.find?, Ne.symm hkk]
  | cons p t ih =>
    by_cases hp' : p.1 = k'
    · simp [jsGet, List.find?, hp']
    · simpa [jsGet, List.find?, hp'] using ih

theorem jsGet_set_ne {β : Type} (l : List (String × β)) (k k' : String)
    (v : β) (hkk : k' ≠ k) : jsGet (jsSet l k v) k' = jsGet l k' := by
  unfold jsSet
  by_cases h : l.any (fun p => p.1 = k) = true
  · rw [if_pos h]; exact jsGet_map_update_ne l k k' v hkk
  · rw [if_neg h]; exact jsGet_append_single_ne l k k' v hkk

/-- `find?` over a `filter` is unchanged when the search predicate implies
the filter predicate. -/
theorem find?_filter_of_imp {β : Type} (l : List β) (q pred : β → Bool)
    (h : ∀ p, pred p = true → q p = true) :
    (l.filter q).find? pred = l.find? pred := by
  induction l with
  | nil => rfl
  | cons p t ih =>
    cases hq : q p with
    | true =>
      cases hpred : pred p with
      | true => simp [List.filter_cons, hq, List.find?, hpred]
      | false => simpa [List.filter_cons, hq, List.find?, hpred] using ih
    | false =>
      have hpred : pred p = false := by
        cases hpred : pred p with
        | true => exact absurd (h p hpred) (by simp [hq])
        | false => rfl
      simpa [List.filter_cons, hq, List.find?, hpred] using ih

/-- `find?` over a `filter` is `none` when the filter predicate excludes
everything the search predicate accepts. -/
theorem find?_filter_none {β : Type} (l : List β) (q pred : β → Bool)
    (h : ∀ p, q p = true → pred p = false) :
    (l.filter q).find? pred = none := by
  induction l with
  | nil => rfl
  | cons p t ih =>
    cases hq : q p with
    | true => simpa [List.filter_cons, hq, List.find?, h p hq] using ih
    | false => simpa [List.filter_cons, hq] using ih

theorem jsGet_erase_self {β : Type} (l : List (String × β)) (k : String) :
    jsGet (jsErase l k) k = none := by
  unfold jsGet jsErase
  rw [find?_filter_none]
  · rfl
  · intro p hq
    simp only [decide_eq_true_eq] at hq
    simpa using hq

theorem jsGet_erase_ne {β : Type} (l : List (String × β)) (k k' : String)
    (hkk : k' ≠ k) : jsGet (jsErase l k) k' = jsGet l k' := by
  unfold jsGet jsErase
  rw [find?_filter_of_imp]
  intro p hpred
  simp only [decide_eq_true_eq] at hpred
  simp [hpred, hkk]

/-- The meta written by a shallow meta-merge, regardless of what was
there. -/
theorem metaOnlyEntry_meta {α : Type} (old : Option (Entry α))
    (m : MetaRec) : (metaOnlyEntry old m).meta = m := by
  cases old <;> rfl

/-- Lookup in the accumulator built by `LIST_RESOURCE_RESOLVED`: an id
already present in the accumulator keeps its entry; otherwise the first
payload resource with that id (if any) provides it. -/
theorem listResolved_lookup {α : Type} (rs : List (Resource α))
    (acc : List (String × Entry α)) (id : String) :
    jsGet (rs.foldl listResolvedStep acc) id =
      match jsGet acc id with
      | some e => some e
      | none => (rs.find? (fun r => r.id = id)).map resolvedEntry := by
  induction rs generalizing acc with
  | nil =>
    simp only [List.foldl_nil]
    cases jsGet acc id <;> simp [List.find?]
  | cons r rs ih =>
    simp only [List.foldl_cons]
    rw [ih]
    by_cases hr : r.id = id
    · subst hr
      cases hacc : jsGet acc r.id with
      | some e => simp [listResolvedStep, hacc]
      | none =>
        simp [listResolvedStep, hacc, jsGet_set_self, List.find?]
    · have hne : id ≠ r.id := fun h => hr h.symm
      cases hacc : jsGet acc id with
      | some e =>
        unfold listResolvedStep
        by_cases hpres : (jsGet acc r.id).isSome = true
        · simp [hpres, hacc]
        · simp [hpres, jsGet_set_ne acc r.id id _ hne, hacc]
      | none =>
        unfold listResolvedStep
        by_cases hpres : (jsGet acc r.id).isSome = true
        · simp [hpres, hacc, List.find?, hr]
        · simp [hpres, jsGet_set_ne acc r.id id _ hne, hacc,
            List.find?, hr]

/-! ### Claims -/

/-- Claim C4 (confirmed): whenever `selected` is a non-null id with no
corresponding entry in the entries map, the read projection's `selected`
field is null. -/
theorem C4_dangling_selection_is_null {α : Type} (s : ResourceManager α)
    (id : String) (hsel : s.selected = some id)
    (habs : jsGet s.list id = none) :
    (managerProjection s).selected = none := by
  unfold managerProjection
  rw [hsel]
  by_cases hid : id = ""
  · simp [hid]
  · simp [hid, habs]

/-- Witness for C4: the projection of a state selecting the absent id
`"x"` has a null `selected`. -/
theorem C4_dangling_selection_is_null_witness :
    (managerProjection ({ list := [], action := none, error := none,
                          selected := some "x" } :
      ResourceManager Nat)).selected = none :=
  C4_dangling_selection_is_null _ "x" rfl rfl

/-- Claim C5 (confirmed): after `REMOVE_RESOURCE_RESOLVED id` the entries
map has no key `id`; `selected` is cleared exactly when it equaled `id`
and is otherwise left unchanged, so whenever the previous `selected` was
non-null, the resulting `selected` is null iff it equaled `id`. -/
theorem C5_remove_resolved (α : Type) (s : ResourceManager α)
    (id : String) :
    jsGet (resourceManagerReducer s (.removeResolved id)).list id = none ∧
    (resourceManagerReducer s (.removeResolved id)).selected
      = (if s.selected = some id then none else s.selected) ∧
    (s.selected ≠ none →
      ((resourceManagerReducer s (.removeResolved id)).selected = none ↔
        s.selected = some id)) := by
  refine ⟨jsGet_erase_self s.list id, rfl, fun hne => ?_⟩
  by_cases h : s.selected = some id
  · simp [resourceManagerReducer, h]
  · simp [resourceManagerReducer, h, hne]

/-- Witness for C5: removing the selected id `"9"` empties its entry and
clears the selection, on a concrete state. -/
theorem C5_remove_resolved_witness :
    jsGet (resourceManagerReducer
      ({ list := [("9", ⟨some "9", some 4, ⟨none, none⟩⟩)],
         action := none, error := none, selected := some "9" } :
        ResourceManager Nat)
      (.removeResolved "9")).list "9" = none ∧
    ((resourceManagerReducer
      ({ list := [("9", ⟨some "9", some 4, ⟨none, none⟩⟩)],
         action := none, error := none, selected := some "9" } :
        ResourceManager Nat)
      (.removeResolved "9")).selected = none ↔
      (({ list := [("9", ⟨some "9", some 4, ⟨none, none⟩⟩)],
          action := none, error := none, selected := some "9" } :
         ResourceManager Nat)).selected = some "9") := by
  have h := C5_remove_resolved Nat
    { list := [("9", ⟨some "9", some 4, ⟨none, none⟩⟩)],
      action := none, error := none, selected := some "9" } "9"
  exact ⟨h.1, h.2.2 (by simp)⟩

/-- Claim C6 (confirmed): `GET/UPDATE/CREATE_RESOURCE_RESOLVED` with
payload `r` null the global action and error and replace the entry at
`r.id` by exactly the payload with meta `{action: null, error: null}`,
whatever was stored before. -/
theorem C6_resolved_full_replace {α : Type} (s : ResourceManager α)
    (r : Resource α) :
    ((resourceManagerReducer s (.getResolved r)).action = none ∧
      (resourceManagerReducer s (.getResolved r)).error = none ∧
      jsGet (resourceManagerReducer s (.getResolved r)).list r.id
        = some ⟨some r.id, some r.data, ⟨none, none⟩⟩) ∧
    ((resourceManagerReducer s (.updateResolved r)).action = none ∧
      (resourceManagerReducer s (.updateResolved r)).error = none ∧
      jsGet (resourceManagerReducer s (.updateResolved r)).list r.id
        = some ⟨some r.id, some r.data, ⟨none, none⟩⟩) ∧
    ((resourceManagerReducer s (.createResolved r)).action = none ∧
      (resourceManagerReducer s (.createResolved r)).error = none ∧
      jsGet (resourceManagerReducer s (.createResolved r)).list r.id
        = some ⟨some r.id, some r.data, ⟨none, none⟩⟩) := by
  simp [resourceManagerReducer, jsGet_set_self, resolvedEntry]

/-- Claim C9 (confirmed): `LIST_RESOURCE_RESOLVED` with a duplicated id in
the payload, applied to the empty state, keeps exactly one entry for that
id, holding the first occurrence's data with meta
`{action: null, error: null}`. -/
theorem C9_duplicate_first_wins {α : Type} (a : String) (d1 d2 : α) :
    (resourceManagerReducer (EMPTY_RESOURCE_MANAGER (α := α))
      (.listResolved [⟨a, d1⟩, ⟨a, d2⟩])).list
      = [(a, ⟨some a, some d1, ⟨none, none⟩⟩)] := by
  simp [resourceManagerReducer, EMPTY_RESOURCE_MANAGER, listResolvedStep,
    jsGet, jsSet, resolvedEntry, List.find?]

/-- Claim C7 (confirmed): when the future supplied to `update` rejects
with an error whose message is `msg`, the future returned by the verb
rejects with exactly the bare string `msg` (the embedding's rejection
channel carries only the message string, mirroring `throw error.message`),
and the state obtained by folding the dispatched events records the
failure: the entry at `id` has meta `{action: null, error: msg}` and the
global error is `msg`. Instantiating `id := "5"` and `msg := "conflict"`
gives the spec's scenario. -/
theorem C7_update_rejection_dual_channel {α : Type}
    (s : ResourceManager α) (id msg : String) :
    (handleUpdate (α := α) id (.rejected msg)).2 = .error msg ∧
    (jsGet (applyTrace s (handleUpdate (α := α) id (.rejected msg)).1).list
        id).map Entry.meta = some ⟨none, some msg⟩ ∧
    (applyTrace s (handleUpdate (α := α) id (.rejected msg)).1).error
      = some msg := by
  refine ⟨rfl, ?_, rfl⟩
  simp [handleUpdate, applyTrace, resourceManagerReducer, jsGet_set_self,
    metaOnlyEntry_meta]

/-- Claim C8 (confirmed): for each asynchronous verb and every settlement
of the supplied future, the dispatched event trace is exactly the verb's
STARTED event followed by exactly one settlement (RESOLVED or REJECTED)
event: STARTED is first — emitted before the outcome is consumed — and
the settlement occurs exactly once, strictly after it. -/
theorem C8_started_then_one_settlement {α : Type} (id : String)
    (og ou : Outcome (Resource α)) (ol : Outcome (List (Resource α)))
    (oc : Outcome (Resource α)) (od : Outcome α) :
    (∃ e, isGetSettle e = true ∧
      (handleGet id og).1 = [.getStarted id, e] ∧
      (handleGet id og).1.countP isGetSettle = 1) ∧
    (∃ e, isListSettle e = true ∧
      (handleList ol).1 = [.listStarted, e] ∧
      (handleList (α := α) ol).1.countP isListSettle = 1) ∧
    (∃ e, isUpdateSettle e = true ∧
      (handleUpdate id ou).1 = [.updateStarted id, e] ∧
      (handleUpdate id ou).1.countP isUpdateSettle = 1) ∧
    (∃ e, isCreateSettle e = true ∧
      (handleCreate oc).1 = [.createStarted, e] ∧
      (handleCreate oc).1.countP isCreateSettle = 1) ∧
    (∃ e, isRemoveSettle e = true ∧
      (handleRemove id od).1 = [.removeStarted id, e] ∧
      (handleRemove (α := α) id od).1.countP isRemoveSettle = 1) := by
  refine ⟨?_, ?_, ?_, ?_, ?_⟩
  · cases og with
    | resolved r =>
      exact ⟨.getResolved r, rfl, rfl, by
        simp [handleGet, List.countP_cons, isGetSettle]⟩
    | rejected m =>
      exact ⟨.getRejected ⟨id, m⟩, rfl, rfl, by
        simp [handleGet, List.countP_cons, isGetSettle]⟩
  · cases ol with
    | resolved rs =>
      exact ⟨.listResolved rs, rfl, rfl, by
        simp [handleList, List.countP_cons, isListSettle]⟩
    | rejected m =>
      exact ⟨.listRejected m, rfl, rfl, by
        simp [handleList, List.countP_cons, isListSettle]⟩
  · cases ou with
    | resolved r =>
      exact ⟨.updateResolved r, rfl, rfl, by
        simp [handleUpdate, List.countP_cons, isUpdateSettle]⟩
    | rejected m =>
      exact ⟨.updateRejected ⟨id, m⟩, rfl, rfl, by
        simp [handleUpdate, List.countP_cons, isUpdateSettle]⟩
  · cases oc with
    | resolved r =>
      exact ⟨.createResolved r, rfl, rfl, by
        simp [handleCreate, List.countP_cons, isCreateSettle]⟩
    | rejected m =>
      exact ⟨.createRejected m, rfl, rfl, by
        simp [handleCreate, List.countP_cons, isCreateSettle]⟩
  · cases od with
    | resolved v =>
      exact ⟨.removeResolved id, rfl, rfl, by
        simp [handleRemove, List.countP_cons, isRemoveSettle]⟩
    | rejected m =>
      exact ⟨.removeRejected ⟨id, m⟩, rfl, rfl, by
        simp [handleRemove, List.countP_cons, isRemoveSettle]⟩

/-- Claim C10 (confirmed): on a state with no entry for `id`,
`UPDATE/REMOVE_RESOURCE_STARTED id` create an entry holding only the meta
record (no `id` field, no payload fields), while
`GET_RESOURCE_STARTED id` additionally writes the `id` field. -/
theorem C10_started_ghost_shape {α : Type} (s : ResourceManager α)
    (id : String) (h : jsGet s.list id = none) :
    jsGet (resourceManagerReducer s (.updateStarted id)).list id
      = some ⟨none, none, ⟨some .update, none⟩⟩ ∧
    jsGet (resourceManagerReducer s (.removeStarted id)).list id
      = some ⟨none, none, ⟨some .remove, none⟩⟩ ∧
    jsGet (resourceManagerReducer s (.getStarted id)).list id
      = some ⟨some id, none, ⟨some .get, none⟩⟩ := by
  simp [resourceManagerReducer, jsGet_set_self, metaOnlyEntry,
    getStartedEntry, h]

/-- Witness for C10: the three started events on the empty state and id
`"1"`. -/
theorem C10_started_ghost_shape_witness :
    jsGet (resourceManagerReducer (EMPTY_RESOURCE_MANAGER (α := Nat))
      (.updateStarted "1")).list "1"
      = some ⟨none, none, ⟨some .update, none⟩⟩ ∧
    jsGet (resourceManagerReducer (EMPTY_RESOURCE_MANAGER (α := Nat))
      (.removeStarted "1")).list "1"
      = some ⟨none, none, ⟨some .remove, none⟩⟩ ∧
    jsGet (resourceManagerReducer (EMPTY_RESOURCE_MANAGER (α := Nat))
      (.getStarted "1")).list "1"
      = some ⟨some "1", none, ⟨some .get, none⟩⟩ :=
  C10_started_ghost_shape EMPTY_RESOURCE_MANAGER "1" rfl

/-- Counterexample to claim C1: from entries `{a: {v:1}}`, the event
`LIST_RESOURCE_RESOLVED [{id:a, v:2}, {id:b, v:3}]` does NOT keep the
existing entry for `a`: the resulting entry for `a` is the incoming
resource `{id:a, v:2}` with fresh meta, because the rebuild's accumulator
starts from the empty object, not from the previous entries. -/
theorem C1_counterexample :
    jsGet (resourceManagerReducer
      ({ list := [("a", ⟨some "a", some 1, ⟨none, none⟩⟩)],
         action := none, error := none, selected := none } :
        ResourceManager Nat)
      (.listResolved [⟨"a", 2⟩, ⟨"b", 3⟩])).list "a"
      ≠ some ⟨some "a", some 1, ⟨none, none⟩⟩ ∧
    jsGet (resourceManagerReducer
      ({ list := [("a", ⟨some "a", some 1, ⟨none, none⟩⟩)],
         action := none, error := none, selected := none } :
        ResourceManager Nat)
      (.listResolved [⟨"a", 2⟩, ⟨"b", 3⟩])).list "a"
      = some ⟨some "a", some 2, ⟨none, none⟩⟩ := by
  constructor
  · intro h
    simp [resourceManagerReducer, listResolvedStep, jsGet, jsSet,
      resolvedEntry, List.find?] at h
  · simp [resourceManagerReducer, listResolvedStep, jsGet, jsSet,
      resolvedEntry, List.find?]

/-- Claim C1 (amended): for every state and every `LIST_RESOURCE_RESOLVED`
event, the resulting entry for an id is the first occurrence of that id
in the payload, turned into a fresh entry with meta
`{action: null, error: null}`, regardless of the previous entries (which
are never consulted); in particular from entries `{a: {v:1}}` the event
`LIST_RESOURCE_RESOLVED [{id:a, v:2}, {id:b, v:3}]` yields entries
`{a: {id:a, v:2, meta:{action:null,error:null}},
b: {id:b, v:3, meta:{action:null,error:null}}}` — the existing entry for
`a` is overwritten by the incoming duplicate. -/
theorem C1_amended_rebuild_from_payload :
    (∀ (α : Type) (s : ResourceManager α) (rs : List (Resource α))
      (id : String),
      jsGet (resourceManagerReducer s (.listResolved rs)).list id
        = (rs.find? (fun r => r.id = id)).map resolvedEntry) ∧
    (resourceManagerReducer
      ({ list := [("a", ⟨some "a", some 1, ⟨none, none⟩⟩)],
         action := none, error := none, selected := none } :
        ResourceManager Nat)
      (.listResolved [⟨"a", 2⟩, ⟨"b", 3⟩])).list
      = [("a", ⟨some "a", some 2, ⟨none, none⟩⟩),
         ("b", ⟨some "b", some 3, ⟨none, none⟩⟩)] := by
  constructor
  · intro α s rs id
    show jsGet (rs.foldl listResolvedStep []) id = _
    rw [listResolved_lookup]
    rfl
  · simp [resourceManagerReducer, listResolvedStep, jsGet, jsSet,
      resolvedEntry, List.find?]

/-- Counterexample to claim C2: an entry (here `c`) whose id does not
appear in the `LIST_RESOURCE_RESOLVED` payload is dropped from the
resulting entries map, not kept. -/
theorem C2_counterexample :
    jsGet ({ list := [("c", ⟨some "c", some 7, ⟨none, none⟩⟩)],
             action := none, error := none, selected := none } :
            ResourceManager Nat).list "c"
      = some ⟨some "c", some 7, ⟨none, none⟩⟩ ∧
    jsGet (resourceManagerReducer
      ({ list := [("c", ⟨some "c", some 7, ⟨none, none⟩⟩)],
         action := none, error := none, selected := none } :
        ResourceManager Nat)
      (.listResolved [⟨"a", 1⟩])).list "c" = none := by
  constructor
  · rfl
  · simp [resourceManagerReducer, listResolvedStep, jsGet, jsSet,
      resolvedEntry, List.find?]

/-- Claim C2 (amended): for every state and every `LIST_RESOURCE_RESOLVED`
event, every entry whose id does not appear in the payload list is
DROPPED from the resulting entries map — the rebuild starts from an empty
accumulator (dedupe by id within the payload, first occurrence wins), so
the result contains only payload ids. -/
theorem C2_amended_absent_ids_dropped {α : Type} (s : ResourceManager α)
    (rs : List (Resource α)) (id : String)
    (h : ∀ r ∈ rs, r.id ≠ id) :
    jsGet (resourceManagerReducer s (.listResolved rs)).list id = none := by
  show jsGet (rs.foldl listResolvedStep []) id = none
  rw [listResolved_lookup]
  have hfind : rs.find? (fun r => r.id = id) = none := by
    rw [List.find?_eq_none]
    intro r hr
    simp [h r hr]
  simp [hfind, jsGet, List.find?]

/-- Witness for amended C2: the entry `c` is dropped by a
`LIST_RESOURCE_RESOLVED` whose payload mentions only `a`. -/
theorem C2_amended_absent_ids_dropped_witness :
    jsGet (resourceManagerReducer
      ({ list := [("c", ⟨some "c", some 7, ⟨none, none⟩⟩)],
         action := none, error := none, selected := none } :
        ResourceManager Nat)
      (.listResolved [⟨"a", 1⟩])).list "c" = none :=
  C2_amended_absent_ids_dropped _ [⟨"a", 1⟩] "c" (by decide)

/-- Counterexample to claim C3: `GET_RESOURCE_REJECTED {id:"1",
message:"boom"}` on the empty state does NOT leave the entries map without
an entry for `"1"`: it materializes a ghost entry holding only the meta
record `{action: null, error: "boom"}`. -/
theorem C3_counterexample :
    jsGet (EMPTY_RESOURCE_MANAGER (α := Nat)).list "1" = none ∧
    jsGet (resourceManagerReducer (EMPTY_RESOURCE_MANAGER (α := Nat))
      (.getRejected ⟨"1", "boom"⟩)).list "1"
      = some ⟨none, none, ⟨none, some "boom"⟩⟩ ∧
    jsGet (resourceManagerReducer (EMPTY_RESOURCE_MANAGER (α := Nat))
      (.getRejected ⟨"1", "boom"⟩)).list "1" ≠ none := by
  refine ⟨rfl, ?_, ?_⟩
  · simp [resourceManagerReducer, EMPTY_RESOURCE_MANAGER, metaOnlyEntry,
      jsGet, jsSet, List.find?]
  · simp [resourceManagerReducer, EMPTY_RESOURCE_MANAGER, metaOnlyEntry,
      jsGet, jsSet, List.find?]

/-- Claim C3 (amended): for every state and every
`GET/UPDATE/REMOVE_RESOURCE_REJECTED` event with payload `{id, message}`,
the global error becomes `message`, the global action becomes null, and
the entry at `id` gets meta `{action: null, error: message}` merged onto
whatever was there; if no entry existed for that id, a ghost entry IS
created for it, holding only that meta record (no `id` field, no payload
fields). -/
theorem C3_amended_rejected_ghost {α : Type} (s : ResourceManager α)
    (e : ActionError) (a : Action α)
    (ha : a = .getRejected e ∨ a = .updateRejected e ∨
      a = .removeRejected e) :
    (resourceManagerReducer s a).error = some e.message ∧
    (resourceManagerReducer s a).action = none ∧
    (jsGet (resourceManagerReducer s a).list e.id).map Entry.meta
      = some ⟨none, some e.message⟩ ∧
    (jsGet s.list e.id = none →
      jsGet (resourceManagerReducer s a).list e.id
        = some ⟨none, none, ⟨none, some e.message⟩⟩) := by
  rcases ha with rfl | rfl | rfl <;>
    exact ⟨rfl, rfl,
      by simp [resourceManagerReducer, jsGet_set_self, metaOnlyEntry_meta],
      fun h => by
        simp [resourceManagerReducer, jsGet_set_self, metaOnlyEntry, h]⟩

/-- Witness for amended C3: `GET_RESOURCE_REJECTED {id:"1",
message:"boom"}` on the empty state, where the ghost entry appears. -/
theorem C3_amended_rejected_ghost_witness :
    (resourceManagerReducer (EMPTY_RESOURCE_MANAGER (α := Nat))
      (.getRejected ⟨"1", "boom"⟩)).error = some "boom" ∧
    (resourceManagerReducer (EMPTY_RESOURCE_MANAGER (α := Nat))
      (.getRejected ⟨"1", "boom"⟩)).action = none ∧
    jsGet (resourceManagerReducer (EMPTY_RESOURCE_MANAGER (α := Nat))
      (.getRejected ⟨"1", "boom"⟩)).list "1"
      = some ⟨none, none, ⟨none, some "boom"⟩⟩ := by
  have h := C3_amended_rejected_ghost (EMPTY_RESOURCE_MANAGER (α := Nat))
    ⟨"1", "boom"⟩ (.getRejected ⟨"1", "boom"⟩) (Or.inl rfl)
  exact ⟨h.1, h.2.1, h.2.2.2 rfl⟩

end UseResource
